import Mathlib

/-!
Verification development for the credential-protection and tenant-isolation
core of the assistant server: the AES-GCM credential cipher
(`getKey`, `encryptToB64`, `decryptFromB64`), the boot-time configuration
validator (zod field checks plus cross-field rules in a transform), the
row-level-security policy model declared in the database schema, and the
activity-log retention pruner.  JS strings and Buffers are modelled by the
lists of their UTF-8 bytes; the AES-256-GCM primitive and JSON.parse are
external library code and are taken as parameters constrained by their
documented contracts.
-/

/-- Byte strings: JS strings and Buffers are modelled by their byte lists. -/
abbrev Bytes := List Nat

/-- Bytes of an ASCII string literal. -/
def ascii (s : String) : Bytes := s.data.map Char.toNat

/-- Base64 alphabet: sextet value to character code, as produced by
Buffer.toString with base64 encoding. -/
def b64Chr (n : Nat) : Nat :=
  if n < 26 then 65 + n
  else if n < 52 then 97 + (n - 26)
  else if n < 62 then 48 + (n - 52)
  else if n = 62 then 43
  else 47

/-- Character code back to sextet value; none for characters outside the
base64 alphabet (Buffer.from with base64 ignores such characters). -/
def b64Sextet (c : Nat) : Option Nat :=
  if 65 ≤ c ∧ c ≤ 90 then some (c - 65)
  else if 97 ≤ c ∧ c ≤ 122 then some (26 + (c - 97))
  else if 48 ≤ c ∧ c ≤ 57 then some (52 + (c - 48))
  else if c = 43 then some 62
  else if c = 47 then some 63
  else none

/-- Base64 encoding of a byte list, with padding, as Buffer.toString emits. -/
def encodeB64 : Bytes → Bytes
  | [] => []
  | [a] => [b64Chr (a / 4), b64Chr (a % 4 * 16), 61, 61]
  | [a, b] => [b64Chr (a / 4), b64Chr (a % 4 * 16 + b / 16), b64Chr (b % 16 * 4), 61]
  | a :: b :: c :: rest =>
      b64Chr (a / 4) :: b64Chr (a % 4 * 16 + b / 16) ::
        b64Chr (b % 16 * 4 + c / 64) :: b64Chr (c % 64) :: encodeB64 rest

/-- Decode a list of sextets into bytes, four sextets to three bytes, a
trailing group of three or two sextets giving two bytes or one. -/
def decodeSextets : List Nat → Bytes
  | a :: b :: c :: d :: rest =>
      (a * 4 + b / 16) :: (b % 16 * 16 + c / 4) :: (c % 4 * 64 + d) :: decodeSextets rest
  | [a, b, c] => [a * 4 + b / 16, b % 16 * 16 + c / 4]
  | [a, b] => [a * 4 + b / 16]
  | _ => []

/-- Base64 decoding in the lenient style of Buffer.from with base64:
characters outside the alphabet, including padding, are ignored. -/
def decodeB64 (s : Bytes) : Bytes := decodeSextets (s.filterMap b64Sextet)

theorem b64Sextet_b64Chr : ∀ n < 64, b64Sextet (b64Chr n) = some n := by decide

theorem b64Sextet_eq : b64Sextet 61 = none := by decide

theorem unpack_div (x y k : Nat) (hk : 0 < k) (hy : y < k) : (x * k + y) / k = x := by
  rw [Nat.add_comm, Nat.mul_comm, Nat.add_mul_div_left _ _ hk, Nat.div_eq_of_lt hy,
    Nat.zero_add]

theorem unpack_mod (x y k : Nat) (hy : y < k) : (x * k + y) % k = y := by
  rw [Nat.add_comm, Nat.add_mul_mod_self_right, Nat.mod_eq_of_lt hy]

theorem decodeB64_encodeB64 (l : Bytes) (h : ∀ b ∈ l, b < 256) :
    decodeB64 (encodeB64 l) = l := by
  induction l using encodeB64.induct with
  | case1 => rfl
  | case2 a =>
    have ha : a < 256 := h a (by simp)
    have h0 : a / 4 < 64 := by omega
    have h1 : a % 4 * 16 < 64 := by omega
    simp only [encodeB64, decodeB64, List.filterMap,
      b64Sextet_b64Chr _ h0, b64Sextet_b64Chr _ h1, b64Sextet_eq]
    simp only [decodeSextets, List.cons.injEq, and_true]
    rw [Nat.mul_div_cancel _ (by norm_num)]
    omega
  | case3 a b =>
    have ha : a < 256 := h a (by simp)
    have hb : b < 256 := h b (by simp)
    have h0 : a / 4 < 64 := by omega
    have h1 : a % 4 * 16 + b / 16 < 64 := by omega
    have h2 : b % 16 * 4 < 64 := by omega
    simp only [encodeB64, decodeB64, List.filterMap,
      b64Sextet_b64Chr _ h0, b64Sextet_b64Chr _ h1, b64Sextet_b64Chr _ h2, b64Sextet_eq]
    simp only [decodeSextets, List.cons.injEq, and_true]
    rw [unpack_div _ _ 16 (by norm_num) (by omega),
      unpack_mod _ _ 16 (by omega),
      Nat.mul_div_cancel _ (show 0 < 4 by norm_num)]
    omega
  | case4 a b c rest ih =>
    have ha : a < 256 := h a (by simp)
    have hb : b < 256 := h b (by simp)
    have hc : c < 256 := h c (by simp)
    have h0 : a / 4 < 64 := by omega
    have h1 : a % 4 * 16 + b / 16 < 64 := by omega
    have h2 : b % 16 * 4 + c / 64 < 64 := by omega
    have h3 : c % 64 < 64 := by omega
    have hrest : ∀ x ∈ rest, x < 256 := fun x hx => h x (by simp [hx])
    have ihr := ih hrest
    simp only [decodeB64] at ihr
    simp only [encodeB64, decodeB64, List.filterMap,
      b64Sextet_b64Chr _ h0, b64Sextet_b64Chr _ h1,
      b64Sextet_b64Chr _ h2, b64Sextet_b64Chr _ h3]
    simp only [decodeSextets, List.cons.injEq]
    rw [ihr]
    rw [unpack_div _ _ 16 (by norm_num) (by omega),
      unpack_mod _ _ 16 (by omega),
      unpack_div _ _ 4 (by norm_num) (by omega),
      unpack_mod _ _ 4 (by omega)]
    refine ⟨by omega, by omega, by omega, rfl⟩

theorem encodeB64_length (l : Bytes) :
    (encodeB64 l).length = 4 * ((l.length + 2) / 3) := by
  induction l using encodeB64.induct with
  | case1 => rfl
  | case2 a => simp [encodeB64]
  | case3 a b => simp [encodeB64]
  | case4 a b c rest ih => simp [encodeB64, ih]; omega

/-- Upper bound on base64 alphabet character codes. -/
theorem b64Chr_lt (n : Nat) : b64Chr n < 256 := by
  unfold b64Chr
  split <;> [omega; skip]
  split <;> [omega; skip]
  split <;> [omega; skip]
  split <;> omega

theorem encodeB64_mem_lt (l : Bytes) : ∀ x ∈ encodeB64 l, x < 256 := by
  induction l using encodeB64.induct with
  | case1 => simp [encodeB64]
  | case2 a =>
    simp only [encodeB64, List.mem_cons, List.not_mem_nil, or_false]
    rintro x (rfl | rfl | rfl | rfl) <;> first | exact b64Chr_lt _ | omega
  | case3 a b =>
    simp only [encodeB64, List.mem_cons, List.not_mem_nil, or_false]
    rintro x (rfl | rfl | rfl | rfl) <;> first | exact b64Chr_lt _ | omega
  | case4 a b c rest ih =>
    simp only [encodeB64, List.mem_cons]
    rintro x (rfl | rfl | rfl | rfl | hx) <;>
      first | exact b64Chr_lt _ | exact ih x hx

/-- Hexadecimal digit character code, lowercase letters. -/
def hexDigit (n : Nat) : Nat := if n < 10 then 48 + n else 87 + n

/-- JSON string escaping of one byte, as JSON.stringify performs it: quote and
backslash get two-character escapes, the named control characters their short
escapes, the remaining control characters a six-character unicode escape, and
every other byte passes through unchanged. -/
def escByte (b : Nat) : Bytes :=
  if b = 34 then [92, 34]
  else if b = 92 then [92, 92]
  else if b = 8 then [92, 98]
  else if b = 9 then [92, 116]
  else if b = 10 then [92, 110]
  else if b = 12 then [92, 102]
  else if b = 13 then [92, 114]
  else if b < 32 then [92, 117, 48, 48, hexDigit (b / 16), hexDigit (b % 16)]
  else [b]

/-- JSON string escaping of a byte string. -/
def escapeJson (s : Bytes) : Bytes := (s.map escByte).flatten

/-- EncryptedPayload from the cipher module: keyId plus the base64 text of the
iv, ciphertext and authentication tag.  All four fields hold the bytes of the
serialized text, exactly as they appear inside the JSON envelope. -/
structure EncryptedPayload where
  keyId : Bytes
  iv : Bytes
  ciphertext : Bytes
  tag : Bytes
  deriving DecidableEq

/-- JSON.stringify of the payload object with the field order of the source:
keyId, iv, ciphertext, tag.  The bytes 123 and 125 are the braces. -/
def stringifyPayload (p : EncryptedPayload) : Bytes :=
  123 :: (ascii "\"keyId\":\"" ++ escapeJson p.keyId ++ ascii "\",\"iv\":\"" ++ p.iv ++
    ascii "\",\"ciphertext\":\"" ++ p.ciphertext ++ ascii "\",\"tag\":\"" ++ p.tag ++
    ascii "\"" ++ [125])

theorem stringifyPayload_length (p : EncryptedPayload) :
    (stringifyPayload p).length =
      45 + (escapeJson p.keyId).length + p.iv.length + p.ciphertext.length + p.tag.length := by
  simp [stringifyPayload, ascii, List.length_append]
  omega

theorem escByte_mem_lt (b : Nat) (hb : b < 256) : ∀ x ∈ escByte b, x < 256 := by
  intro x hx
  have hd1 : hexDigit (b / 16) < 256 := by unfold hexDigit; split <;> omega
  have hd2 : hexDigit (b % 16) < 256 := by unfold hexDigit; split <;> omega
  unfold escByte at hx
  repeat' split at hx
  all_goals simp only [List.mem_cons, List.not_mem_nil, or_false] at hx
  all_goals omega

theorem escapeJson_mem_lt (s : Bytes) (hs : ∀ x ∈ s, x < 256) :
    ∀ x ∈ escapeJson s, x < 256 := by
  intro x hx
  simp only [escapeJson, List.mem_flatten, List.mem_map] at hx
  obtain ⟨l, ⟨b, hb, rfl⟩, hxl⟩ := hx
  exact escByte_mem_lt b (hs b hb) x hxl

theorem stringifyPayload_mem_lt (p : EncryptedPayload)
    (hkid : ∀ x ∈ p.keyId, x < 256) (hiv : ∀ x ∈ p.iv, x < 256)
    (hct : ∀ x ∈ p.ciphertext, x < 256) (htag : ∀ x ∈ p.tag, x < 256) :
    ∀ x ∈ stringifyPayload p, x < 256 := by
  intro x hx
  have hA : ∀ y ∈ ascii "\"keyId\":\"", y < 256 := by decide
  have hB : ∀ y ∈ ascii "\",\"iv\":\"", y < 256 := by decide
  have hC : ∀ y ∈ ascii "\",\"ciphertext\":\"", y < 256 := by decide
  have hD : ∀ y ∈ ascii "\",\"tag\":\"", y < 256 := by decide
  have hF : ∀ y ∈ ascii "\"", y < 256 := by decide
  simp only [stringifyPayload, List.mem_cons, List.mem_append, List.mem_singleton,
    or_assoc] at hx
  rcases hx with rfl | h | h | h | h | h | h | h | h | h | rfl | h
  · omega
  · exact hA x h
  · exact escapeJson_mem_lt _ hkid x h
  · exact hB x h
  · exact hiv x h
  · exact hC x h
  · exact hct x h
  · exact hD x h
  · exact htag x h
  · exact hF x h
  · omega
  · simp at h

/-- AEAD primitive of the cipher module: aes-256-gcm from node:crypto is
external library code, so the development is parameterized over it.  enc maps
key, iv and plaintext to ciphertext and authentication tag; dec maps key, iv,
ciphertext and tag to the plaintext, or none when the tag does not verify. -/
structure Gcm where
  enc : Bytes → Bytes → Bytes → Bytes × Bytes
  dec : Bytes → Bytes → Bytes → Bytes → Option Bytes

/-- The two environment variables the cipher module reads, each the bytes of
the variable's text when set. -/
structure CryptoEnv where
  tokenEncryptionKey : Option Bytes
  tokenEncryptionKeyId : Option Bytes
  deriving DecidableEq

/-- Error cases of the cipher module, one per throw site. -/
inductive CryptoError where
  | keyNotSet
  | keyNot32Bytes
  | payloadTooLarge
  | parseFailed
  | authFailed
  deriving DecidableEq

/-- Key identifier resolution: the TOKEN_ENCRYPTION_KEY_ID value, with the
JS or-default giving the literal default for an unset or empty value. -/
def keyIdOf (env : CryptoEnv) : Bytes :=
  match env.tokenEncryptionKeyId with
  | some s => if s = [] then ascii "default" else s
  | none => ascii "default"

/-- getKey from the cipher module: requires TOKEN_ENCRYPTION_KEY to be set and
non-empty and its base64 decoding to be exactly 32 bytes; the key identifier
falls back to the literal default. -/
def getKey (env : CryptoEnv) : Except CryptoError (Bytes × Bytes) :=
  match env.tokenEncryptionKey with
  | none => .error .keyNotSet
  | some keyB64 =>
    if keyB64 = [] then .error .keyNotSet
    else
      let key := decodeB64 keyB64
      if key.length = 32 then .ok (key, keyIdOf env) else .error .keyNot32Bytes

/-- encryptToB64 from the cipher module.  The fresh random 12-byte nonce is
passed in as the iv argument (randomBytes is modelled as an input), the AEAD
primitive as gcm.  Builds the payload with base64 text fields, guards the
serialized JSON size at 16 KiB, and returns the base64 of the JSON. -/
def encryptToB64 (gcm : Gcm) (env : CryptoEnv) (iv : Bytes) (plaintext : Bytes) :
    Except CryptoError Bytes :=
  match getKey env with
  | .error e => .error e
  | .ok (key, keyId) =>
    let ciphertext := (gcm.enc key iv plaintext).1
    let tag := (gcm.enc key iv plaintext).2
    let payload : EncryptedPayload :=
      ⟨keyId, encodeB64 iv, encodeB64 ciphertext, encodeB64 tag⟩
    if (stringifyPayload payload).length > 16 * 1024 then .error .payloadTooLarge
    else .ok (encodeB64 (stringifyPayload payload))

/-- decryptFromB64 from the cipher module.  JSON.parse is external library
code, passed as the jsonParse argument.  Decodes the outer base64, parses the
envelope, decodes the iv, tag and ciphertext fields, and runs the AEAD
decryption with the key from configuration; the envelope's keyId is unused. -/
def decryptFromB64 (gcm : Gcm) (jsonParse : Bytes → Option EncryptedPayload)
    (env : CryptoEnv) (b64 : Bytes) : Except CryptoError Bytes :=
  match getKey env with
  | .error e => .error e
  | .ok (key, _) =>
    match jsonParse (decodeB64 b64) with
    | none => .error .parseFailed
    | some payload =>
      match gcm.dec key (decodeB64 payload.iv) (decodeB64 payload.ciphertext)
          (decodeB64 payload.tag) with
      | none => .error .authFailed
      | some plaintext => .ok plaintext

/-- A concrete AEAD instance used to exhibit witnesses: ciphertext equals
plaintext and the tag is empty, so the AEAD correctness contract holds. -/
def idGcm : Gcm := ⟨fun _ _ pt => (pt, []), fun _ _ ct _ => some ct⟩

/-- A concrete JSON parser for a single known envelope, used to exhibit
witnesses for the theorems parameterized over JSON.parse. -/
def parseFor (p : EncryptedPayload) : Bytes → Option EncryptedPayload :=
  fun b => if b = stringifyPayload p then some p else none

theorem getKey_ok (env : CryptoEnv) (ks : Bytes)
    (hkey : env.tokenEncryptionKey = some ks) (hne : ks ≠ [])
    (hlen : (decodeB64 ks).length = 32) :
    getKey env = .ok (decodeB64 ks, keyIdOf env) := by
  simp [getKey, hkey, hne, hlen]

theorem encryptToB64_eq_ok (gcm : Gcm) (env : CryptoEnv) (iv pt out : Bytes) :
    encryptToB64 gcm env iv pt = .ok out ↔
      ∃ ks, env.tokenEncryptionKey = some ks ∧ ks ≠ [] ∧
        (decodeB64 ks).length = 32 ∧
        (stringifyPayload ⟨keyIdOf env, encodeB64 iv,
          encodeB64 (gcm.enc (decodeB64 ks) iv pt).1,
          encodeB64 (gcm.enc (decodeB64 ks) iv pt).2⟩).length ≤ 16 * 1024 ∧
        out = encodeB64 (stringifyPayload ⟨keyIdOf env, encodeB64 iv,
          encodeB64 (gcm.enc (decodeB64 ks) iv pt).1,
          encodeB64 (gcm.enc (decodeB64 ks) iv pt).2⟩) := by
  constructor
  · intro h
    unfold encryptToB64 at h
    cases hk : env.tokenEncryptionKey with
    | none => simp [getKey, hk] at h
    | some ks =>
      refine ⟨ks, rfl, ?_⟩
      by_cases hne : ks = []
      · simp [getKey, hk, hne] at h
      by_cases hlen : (decodeB64 ks).length = 32
      · rw [getKey_ok env ks hk hne hlen] at h
        simp only at h
        split at h
        · exact absurd h (by simp)
        · exact ⟨hne, hlen, by omega, by injection h with h; exact h.symm⟩
      · simp [getKey, hk, hne, hlen] at h
  · rintro ⟨ks, hk, hne, hlen, hsize, rfl⟩
    unfold encryptToB64
    rw [getKey_ok env ks hk hne hlen]
    simp only
    split
    · omega
    · rfl

/-- NODE_ENV classification from the config module: production, test, and
everything else counting as development. -/
inductive NodeEnv where
  | development
  | production
  | test
  deriving DecidableEq

def NodeEnv.isProduction : NodeEnv → Bool
  | .production => true
  | _ => false

def NodeEnv.isTest : NodeEnv → Bool
  | .test => true
  | _ => false

/-- isDevelopment from the config module: not production and not test. -/
def NodeEnv.isDevelopment (ne : NodeEnv) : Bool := !ne.isProduction && !ne.isTest

/-- JS truthiness of an optional environment string: set and non-empty. -/
def truthy : Option String → Bool
  | none => false
  | some s => !s.isEmpty

/-- Character-wise lowercase, the effect of JS toLowerCase on the strings
compared against the accepted flag spellings. -/
def lowerAscii (s : String) : String := ⟨s.data.map Char.toLower⟩

/-- boolFromEnv from the config module: an unset value yields the fallback, a
set value is lowercased and tested against the four accepted spellings. -/
def boolFromEnv (v : Option String) (fallback : Bool) : Bool :=
  match v with
  | none => fallback
  | some s => (["1", "true", "yes", "on"] : List String).contains (lowerAscii s)

/-- The E.164 phone number pattern from the config module: a plus sign
followed by seven to fifteen digits. -/
def isE164 (s : String) : Bool :=
  match s.data with
  | c :: rest => c == '+' && rest.all (·.isDigit) && decide (7 ≤ rest.length) &&
      decide (rest.length ≤ 15)
  | [] => false

/-- Raw environment mapping restricted to the variables involved in the
security-relevant field checks and all the cross-field rules of the config
schema; each field is the variable's string value when set.  The remaining
schema fields have independent per-field checks of the same shape and do not
interact with the rules modelled here. -/
structure RawEnv where
  DATABASE_URL : Option String
  TOKEN_ENCRYPTION_KEY : Option String
  TOKEN_ENCRYPTION_KEY_ID : Option String
  OPENAI_API_KEY : Option String
  TWILIO_ACCOUNT_SID : Option String
  TWILIO_AUTH_TOKEN : Option String
  TWILIO_MESSAGING_SERVICE_SID : Option String
  TWILIO_FROM_NUMBER : Option String
  TWILIO_DEFAULT_SMS_TO : Option String
  ALLOW_DEFAULT_SMS_TO_IN_PROD : Option String
  GOOGLE_APPLICATION_CREDENTIALS : Option String
  FEATURE_ENABLE_SMS : Option String
  FEATURE_ENABLE_TASKS : Option String
  FEATURE_ENABLE_PUSH : Option String
  FEATURE_ENABLE_CLASSIFIER : Option String
  deriving DecidableEq

/-- The feature-flag set computed in the transform. -/
structure Features where
  sms : Bool
  tasks : Bool
  push : Bool
  classifier : Bool
  deriving DecidableEq

/-- The features record from the transform: every flag defaults to enabled in
development and to disabled otherwise. -/
def features (ne : NodeEnv) (env : RawEnv) : Features :=
  ⟨boolFromEnv env.FEATURE_ENABLE_SMS ne.isDevelopment,
   boolFromEnv env.FEATURE_ENABLE_TASKS ne.isDevelopment,
   boolFromEnv env.FEATURE_ENABLE_PUSH ne.isDevelopment,
   boolFromEnv env.FEATURE_ENABLE_CLASSIFIER ne.isDevelopment⟩

/-- The zod min-length-one string check: present and non-empty. -/
def minLen1 : Option String → Bool
  | some s => !s.isEmpty
  | none => false

/-- The base64Key32 check: present, non-empty, and base64-decoding to exactly
32 bytes. -/
def base64Key32Ok : Option String → Bool
  | some s => !s.isEmpty && (decodeB64 (ascii s)).length == 32
  | none => false

def msgDbUrl : String := "DATABASE_URL: required non-empty string"

def msgTokenKey : String := "TOKEN_ENCRYPTION_KEY: must be base64-encoded 32-byte key"

def msgTokenKeyId : String := "TOKEN_ENCRYPTION_KEY_ID: required non-empty string"

/-- The aggregated field-level issues of zod safeParse, restricted to the
modelled fields: each violated per-field check contributes its own message,
and all of them are collected. -/
def fieldIssues (env : RawEnv) : List String :=
  (if minLen1 env.DATABASE_URL then [] else [msgDbUrl]) ++
  (if base64Key32Ok env.TOKEN_ENCRYPTION_KEY then [] else [msgTokenKey]) ++
  (if minLen1 env.TOKEN_ENCRYPTION_KEY_ID then [] else [msgTokenKeyId])

def msgClassifier : String := "OPENAI_API_KEY is required when FEATURE_ENABLE_CLASSIFIER=true"

def msgTwilioCreds : String := "Twilio credentials required when FEATURE_ENABLE_SMS=true"

def msgExactlyOne : String :=
  "Provide exactly one of TWILIO_MESSAGING_SERVICE_SID or TWILIO_FROM_NUMBER"

def msgFromE164 : String := "TWILIO_FROM_NUMBER: invalid E.164 number"

def msgDefaultToProd : String :=
  "TWILIO_DEFAULT_SMS_TO set in production without ALLOW_DEFAULT_SMS_TO_IN_PROD=true"

def msgDefaultToE164 : String := "TWILIO_DEFAULT_SMS_TO: invalid E.164 number"

def msgAdc : String := "GOOGLE_APPLICATION_CREDENTIALS is required in development for ADC"

/-- The conditional-requirement throws of the schema transform, in source
order.  Each is a throw inside the transform, so evaluation stops at the
first violated rule and only that rule's message escapes. -/
def crossFieldError (ne : NodeEnv) (env : RawEnv) : Option String :=
  if (features ne env).classifier && !truthy env.OPENAI_API_KEY then
    some msgClassifier
  else if (features ne env).sms &&
      (!truthy env.TWILIO_ACCOUNT_SID || !truthy env.TWILIO_AUTH_TOKEN) then
    some msgTwilioCreds
  else if (features ne env).sms &&
      ((truthy env.TWILIO_MESSAGING_SERVICE_SID && truthy env.TWILIO_FROM_NUMBER) ||
       (!truthy env.TWILIO_MESSAGING_SERVICE_SID && !truthy env.TWILIO_FROM_NUMBER)) then
    some msgExactlyOne
  else if (features ne env).sms && truthy env.TWILIO_FROM_NUMBER &&
      !isE164 (env.TWILIO_FROM_NUMBER.getD "") then
    some msgFromE164
  else if (features ne env).sms && ne.isProduction && truthy env.TWILIO_DEFAULT_SMS_TO &&
      !boolFromEnv env.ALLOW_DEFAULT_SMS_TO_IN_PROD false then
    some msgDefaultToProd
  else if (features ne env).sms && !ne.isProduction && truthy env.TWILIO_DEFAULT_SMS_TO &&
      !isE164 (env.TWILIO_DEFAULT_SMS_TO.getD "") then
    some msgDefaultToE164
  else if (features ne env).push && ne.isDevelopment &&
      !truthy env.GOOGLE_APPLICATION_CREDENTIALS then
    some msgAdc
  else
    none

/-- The typed configuration produced on success, restricted to the modelled
fields. -/
structure AppConfig where
  nodeEnv : NodeEnv
  dbUrl : String
  tokenKeyB64 : String
  tokenKeyId : String
  twilioAccountSid : Option String
  twilioAuthToken : Option String
  twilioMessagingServiceSid : Option String
  twilioFromNumber : Option String
  twilioDefaultSmsTo : Option String
  openaiApiKey : Option String
  featureSet : Features
  deriving DecidableEq

/-- The whole validation pipeline: safeParse collects every field-level issue
and fails with the full list; only when all field checks pass does the
transform run, and a throw there escapes as a single message. -/
def parseConfig (ne : NodeEnv) (env : RawEnv) : Except (List String) AppConfig :=
  if fieldIssues env = [] then
    match crossFieldError ne env with
    | some m => .error [m]
    | none => .ok
        { nodeEnv := ne
          dbUrl := env.DATABASE_URL.getD ""
          tokenKeyB64 := env.TOKEN_ENCRYPTION_KEY.getD ""
          tokenKeyId := env.TOKEN_ENCRYPTION_KEY_ID.getD ""
          twilioAccountSid := env.TWILIO_ACCOUNT_SID
          twilioAuthToken := env.TWILIO_AUTH_TOKEN
          twilioMessagingServiceSid := env.TWILIO_MESSAGING_SERVICE_SID
          twilioFromNumber := env.TWILIO_FROM_NUMBER
          twilioDefaultSmsTo := env.TWILIO_DEFAULT_SMS_TO
          openaiApiKey := env.OPENAI_API_KEY
          featureSet := features ne env }
  else .error (fieldIssues env)

/-- Tenant identifiers, standing for the uuid values of the schema. -/
abbrev Uuid := Nat

/-- A database session with its optional app.tenant_id setting.  The policies
compare each row's tenant column against this setting; with the setting
unset the comparison cannot hold, so every access is denied, matching the
default-deny design of the schema. -/
structure DbSession where
  tenant : Option Uuid
  deriving DecidableEq

/-- The tenant_access policy predicate of the schema: the row's tenant column
equals the session's app.tenant_id setting. -/
def currentTenantMatches (s : DbSession) (rowTenant : Uuid) : Bool :=
  match s.tenant with
  | some t => rowTenant == t
  | none => false

/-- Row visibility under the schema's policies: the permissive policies are
disjoined, deny_all contributing USING false and tenant_access the tenant
comparison. -/
def rowVisible (s : DbSession) (rowTenant : Uuid) : Bool :=
  false || currentTenantMatches s rowTenant

/-- Write admission under the schema's policies: deny_all contributes WITH
CHECK false and tenant_access the tenant comparison. -/
def writeAllowed (s : DbSession) (rowTenant : Uuid) : Bool :=
  false || currentTenantMatches s rowTenant

/-- A row of a tenant-scoped table: the tenant_id column plus the remaining
columns, abstracted as data. -/
structure TenantRow (α : Type) where
  tenantId : Uuid
  data : α
  deriving DecidableEq

/-- A SELECT with an application-level predicate: row-level security filters
every row the session may not see before the predicate applies, so denied
rows are silently absent rather than an error. -/
def selectRows {α : Type} (s : DbSession) (tbl : List (TenantRow α))
    (pred : TenantRow α → Bool) : List (TenantRow α) :=
  tbl.filter (fun r => rowVisible s r.tenantId && pred r)

/-- An INSERT: admitted only when the new row passes the WITH CHECK of some
permissive policy; otherwise the write is rejected. -/
def insertRow {α : Type} (s : DbSession) (tbl : List (TenantRow α))
    (r : TenantRow α) : Option (List (TenantRow α)) :=
  if writeAllowed s r.tenantId then some (tbl ++ [r]) else none

/-- An UPDATE touching the visible rows the predicate selects: every updated
row must still pass WITH CHECK, otherwise the whole write is rejected. -/
def updateRows {α : Type} (s : DbSession) (tbl : List (TenantRow α))
    (pred : TenantRow α → Bool) (f : TenantRow α → TenantRow α) :
    Option (List (TenantRow α)) :=
  if tbl.all (fun r => !(rowVisible s r.tenantId && pred r) ||
      writeAllowed s (f r).tenantId) then
    some (tbl.map (fun r => if rowVisible s r.tenantId && pred r then f r else r))
  else none

/-- An activity_logs row, reduced to the columns the retention function
reads: the tenant and the creation time, in seconds on an integer timeline. -/
structure ActivityLog where
  tenantId : Uuid
  createdAt : Int
  deriving DecidableEq

/-- The cutoff now minus retentionDays, make_interval counted in seconds. -/
def pruneCutoff (now retentionDays : Int) : Int := now - retentionDays * 86400

/-- prune_activity_logs from the schema: DELETE FROM activity_logs WHERE
created_at is strictly below the cutoff.  The function RETURNS void, so its
result is the table after the DELETE paired with the Unit return value; it
runs in a maintenance session not restricted by the tenant policies. -/
def prune_activity_logs (now retentionDays : Int) (tbl : List ActivityLog) :
    List ActivityLog × Unit :=
  (tbl.filter (fun r => !(r.createdAt < pruneCutoff now retentionDays)), ())

/-- C1: in a session whose active tenant setting is tenant a, a read filtered
to a different tenant b returns zero rows, an insert of a row tagged b is
rejected, and an update retagging visible rows to b is rejected; with the
tenant setting unset every read returns zero rows and every write is
rejected. -/
theorem C1_tenant_isolation {α : Type} (a b : Uuid) (hab : a ≠ b)
    (tbl : List (TenantRow α)) (r : TenantRow α) (hr : r.tenantId = b) :
    selectRows ⟨some a⟩ tbl (fun x => x.tenantId == b) = [] ∧
    insertRow ⟨some a⟩ tbl r = none ∧
    ((∃ x ∈ tbl, rowVisible ⟨some a⟩ x.tenantId = true) →
      updateRows ⟨some a⟩ tbl (fun _ => true) (fun x => ⟨b, x.data⟩) = none) ∧
    selectRows ⟨none⟩ tbl (fun _ => true) = [] ∧
    insertRow ⟨none⟩ tbl r = none := by
  refine ⟨?_, ?_, ?_, ?_, ?_⟩
  · simp only [selectRows]
    rw [List.filter_eq_nil_iff]
    intro x hx
    simp only [rowVisible, currentTenantMatches, Bool.false_or, Bool.and_eq_true,
      beq_iff_eq, not_and]
    intro h1 h2
    exact hab (h1 ▸ h2 ▸ rfl)
  · simp only [insertRow, writeAllowed, currentTenantMatches, Bool.false_or, hr]
    rw [if_neg]
    simp only [beq_iff_eq]
    exact fun h => hab h.symm
  · rintro ⟨x, hx, hvis⟩
    simp only [updateRows]
    split
    case isTrue hall =>
      rw [List.all_eq_true] at hall
      have hx2 := hall x hx
      simp only [hvis, Bool.true_and, Bool.not_true, Bool.false_or, writeAllowed,
        currentTenantMatches, beq_iff_eq] at hx2
      exact absurd hx2.symm hab
    case isFalse => rfl
  · simp only [selectRows]
    rw [List.filter_eq_nil_iff]
    intro x hx
    simp [rowVisible, currentTenantMatches]
  · simp [insertRow, writeAllowed, currentTenantMatches]

theorem C1_tenant_isolation_witness :
    selectRows ⟨some 1⟩ [⟨1, 0⟩, ⟨2, 0⟩] (fun x => x.tenantId == 2) = [] ∧
    insertRow ⟨some 1⟩ [⟨1, (0 : Nat)⟩, ⟨2, 0⟩] ⟨2, 0⟩ = none ∧
    selectRows ⟨none⟩ [⟨1, (0 : Nat)⟩, ⟨2, 0⟩] (fun _ => true) = [] := by
  obtain ⟨h1, h2, _, h4, h5⟩ :=
    C1_tenant_isolation (α := Nat) 1 2 (by decide) [⟨1, 0⟩, ⟨2, 0⟩] ⟨2, 0⟩ rfl
  exact ⟨h1, h2, h4⟩

/-- C7 counterexample: prune_activity_logs RETURNS void, so its return value
is the same for a run deleting two rows and a run deleting none; it cannot be
the count of rows deleted that the claim asserts. -/
theorem C7_counterexample :
    (prune_activity_logs 200000 1 [⟨1, 0⟩, ⟨2, 10⟩]).2 =
      (prune_activity_logs 200000 1 []).2 ∧
    (prune_activity_logs 200000 1 [⟨1, 0⟩, ⟨2, 10⟩]).1 = [] ∧
    (prune_activity_logs 200000 1 ([] : List ActivityLog)).1 = [] := by
  exact ⟨rfl, by decide, rfl⟩

/-- C7 amended: prune_activity_logs deletes exactly the activity-log rows
strictly older than the cutoff now minus retentionDays, keeps boundary and
newer rows, is idempotent (a second run on the pruned table deletes zero
rows), and returns void rather than a deleted-row count. -/
theorem C7_retention_prune (now retentionDays : Int) (tbl : List ActivityLog) :
    (∀ r, r ∈ (prune_activity_logs now retentionDays tbl).1 ↔
      r ∈ tbl ∧ ¬(r.createdAt < pruneCutoff now retentionDays)) ∧
    (prune_activity_logs now retentionDays
        (prune_activity_logs now retentionDays tbl).1).1 =
      (prune_activity_logs now retentionDays tbl).1 ∧
    (prune_activity_logs now retentionDays tbl).2 = () := by
  refine ⟨?_, ?_, rfl⟩
  · intro r
    simp [prune_activity_logs, List.mem_filter]
  · simp [prune_activity_logs, List.filter_filter]

theorem C7_retention_prune_witness :
    (prune_activity_logs 200000 1
        (prune_activity_logs 200000 1 [⟨1, 0⟩, ⟨2, 150000⟩]).1).1 =
      (prune_activity_logs 200000 1 [⟨1, 0⟩, ⟨2, 150000⟩]).1 :=
  (C7_retention_prune 200000 1 [⟨1, 0⟩, ⟨2, 150000⟩]).2.1

theorem boolFromEnv_dev_iff (ne : NodeEnv) (v : Option String) :
    boolFromEnv v ne.isDevelopment = true ↔
      ((∃ s, v = some s ∧ lowerAscii s ∈ (["1", "true", "yes", "on"] : List String)) ∨
       (v = none ∧ ne = NodeEnv.development)) := by
  cases v with
  | none =>
    simp only [boolFromEnv]
    cases ne <;>
      simp [NodeEnv.isDevelopment, NodeEnv.isProduction, NodeEnv.isTest]
  | some s =>
    simp only [boolFromEnv]
    constructor
    · intro h
      exact Or.inl ⟨s, rfl, by simpa using h⟩
    · rintro (⟨t, ht, hmem⟩ | ⟨h, _⟩)
      · injection ht with ht
        subst ht
        simpa using hmem
      · exact absurd h (by simp)

/-- C10: each of the four feature flags is enabled exactly when its variable
is set to a value that lowercases to one of the four accepted spellings, or
is unset in a development environment; any other set value disables it, and
an unset flag is disabled in production and test. -/
theorem C10_feature_flag_semantics (ne : NodeEnv) (env : RawEnv) :
    ((features ne env).sms = true ↔
      ((∃ s, env.FEATURE_ENABLE_SMS = some s ∧
          lowerAscii s ∈ (["1", "true", "yes", "on"] : List String)) ∨
       (env.FEATURE_ENABLE_SMS = none ∧ ne = NodeEnv.development))) ∧
    ((features ne env).tasks = true ↔
      ((∃ s, env.FEATURE_ENABLE_TASKS = some s ∧
          lowerAscii s ∈ (["1", "true", "yes", "on"] : List String)) ∨
       (env.FEATURE_ENABLE_TASKS = none ∧ ne = NodeEnv.development))) ∧
    ((features ne env).push = true ↔
      ((∃ s, env.FEATURE_ENABLE_PUSH = some s ∧
          lowerAscii s ∈ (["1", "true", "yes", "on"] : List String)) ∨
       (env.FEATURE_ENABLE_PUSH = none ∧ ne = NodeEnv.development))) ∧
    ((features ne env).classifier = true ↔
      ((∃ s, env.FEATURE_ENABLE_CLASSIFIER = some s ∧
          lowerAscii s ∈ (["1", "true", "yes", "on"] : List String)) ∨
       (env.FEATURE_ENABLE_CLASSIFIER = none ∧ ne = NodeEnv.development))) := by
  refine ⟨?_, ?_, ?_, ?_⟩
  all_goals simp only [features]
  all_goals exact boolFromEnv_dev_iff ne _

theorem C10_feature_flag_semantics_witness :
    (features NodeEnv.production
      ⟨none, none, none, none, none, none, none, none, none, none, none,
        some "TRUE", none, none, none⟩).sms = true :=
  (C10_feature_flag_semantics NodeEnv.production _).1.mpr
    (Or.inl ⟨"TRUE", rfl, by decide⟩)

theorem decryptFromB64_ok (gcm : Gcm) (jsonParse : Bytes → Option EncryptedPayload)
    (env : CryptoEnv) (b64 key kid : Bytes) (payload : EncryptedPayload) (pt : Bytes)
    (hget : getKey env = .ok (key, kid))
    (hparse : jsonParse (decodeB64 b64) = some payload)
    (hdec : gcm.dec key (decodeB64 payload.iv) (decodeB64 payload.ciphertext)
      (decodeB64 payload.tag) = some pt) :
    decryptFromB64 gcm jsonParse env b64 = .ok pt := by
  simp only [decryptFromB64, hget, hparse, hdec]

/-- C2: round trip — a sealed envelope that fits the size cap decrypts back
to the original plaintext under the same configuration, for any AEAD
primitive satisfying its correctness contract at this key, nonce and
plaintext, and any JSON parser inverting the serializer on this envelope. -/
theorem C2_round_trip (gcm : Gcm) (env : CryptoEnv)
    (jsonParse : Bytes → Option EncryptedPayload) (ks iv pt ct tag out : Bytes)
    (hkey : env.tokenEncryptionKey = some ks) (hne : ks ≠ [])
    (hlen : (decodeB64 ks).length = 32)
    (henc : gcm.enc (decodeB64 ks) iv pt = (ct, tag))
    (hdec : gcm.dec (decodeB64 ks) iv ct tag = some pt)
    (hiv : ∀ x ∈ iv, x < 256) (hct : ∀ x ∈ ct, x < 256)
    (htag : ∀ x ∈ tag, x < 256) (hkid : ∀ x ∈ keyIdOf env, x < 256)
    (hparse : jsonParse (stringifyPayload
        ⟨keyIdOf env, encodeB64 iv, encodeB64 ct, encodeB64 tag⟩) =
      some ⟨keyIdOf env, encodeB64 iv, encodeB64 ct, encodeB64 tag⟩)
    (hout : encryptToB64 gcm env iv pt = .ok out) :
    decryptFromB64 gcm jsonParse env out = .ok pt := by
  rw [encryptToB64_eq_ok] at hout
  obtain ⟨ks2, hk2, hne2, hlen2, hsize, rfl⟩ := hout
  have hks2 : ks = ks2 := Option.some.inj (hkey ▸ hk2)
  subst hks2
  simp only [henc] at hsize ⊢
  have hmem : ∀ x ∈ stringifyPayload
      ⟨keyIdOf env, encodeB64 iv, encodeB64 ct, encodeB64 tag⟩, x < 256 :=
    stringifyPayload_mem_lt _ hkid (encodeB64_mem_lt iv) (encodeB64_mem_lt ct)
      (encodeB64_mem_lt tag)
  exact decryptFromB64_ok gcm jsonParse env _ _ (keyIdOf env) _ pt
    (getKey_ok env ks hkey hne hlen)
    (by rw [decodeB64_encodeB64 _ hmem]; exact hparse)
    (by simp only [decodeB64_encodeB64 iv hiv, decodeB64_encodeB64 ct hct,
      decodeB64_encodeB64 tag htag]; exact hdec)

theorem C2_round_trip_witness :
    decryptFromB64 idGcm
        (parseFor ⟨ascii "default", encodeB64 (List.replicate 12 0),
          encodeB64 [104, 105], encodeB64 []⟩)
        ⟨some (List.replicate 43 65 ++ [61]), none⟩
        (encodeB64 (stringifyPayload ⟨ascii "default",
          encodeB64 (List.replicate 12 0), encodeB64 [104, 105], encodeB64 []⟩)) =
      .ok [104, 105] :=
  C2_round_trip idGcm ⟨some (List.replicate 43 65 ++ [61]), none⟩ _
    (List.replicate 43 65 ++ [61]) (List.replicate 12 0) [104, 105] [104, 105] [] _
    rfl (by decide) (by decide) rfl rfl (by decide) (by decide) (by decide)
    (by decide) rfl rfl

/-- C9: with a valid 32-byte key set and the key identifier unset,
encryptToB64 does not fail: provided the envelope fits the size cap it
succeeds and the produced envelope's keyId field is the literal default. -/
theorem C9_default_key_id (gcm : Gcm) (env : CryptoEnv) (iv pt ks : Bytes)
    (hkey : env.tokenEncryptionKey = some ks) (hne : ks ≠ [])
    (hlen : (decodeB64 ks).length = 32)
    (hkid : env.tokenEncryptionKeyId = none)
    (hsize : (stringifyPayload ⟨ascii "default", encodeB64 iv,
        encodeB64 (gcm.enc (decodeB64 ks) iv pt).1,
        encodeB64 (gcm.enc (decodeB64 ks) iv pt).2⟩).length ≤ 16 * 1024) :
    encryptToB64 gcm env iv pt = .ok (encodeB64 (stringifyPayload
      ⟨ascii "default", encodeB64 iv,
        encodeB64 (gcm.enc (decodeB64 ks) iv pt).1,
        encodeB64 (gcm.enc (decodeB64 ks) iv pt).2⟩)) := by
  have hk : keyIdOf env = ascii "default" := by simp [keyIdOf, hkid]
  rw [encryptToB64_eq_ok]
  exact ⟨ks, hkey, hne, hlen, by rw [hk]; exact hsize, by rw [hk]⟩

theorem C9_default_key_id_witness :
    encryptToB64 idGcm ⟨some (List.replicate 43 65 ++ [61]), none⟩
        (List.replicate 12 0) [104, 105] =
      .ok (encodeB64 (stringifyPayload ⟨ascii "default",
        encodeB64 (List.replicate 12 0),
        encodeB64 (idGcm.enc (decodeB64 (List.replicate 43 65 ++ [61]))
          (List.replicate 12 0) [104, 105]).1,
        encodeB64 (idGcm.enc (decodeB64 (List.replicate 43 65 ++ [61]))
          (List.replicate 12 0) [104, 105]).2⟩)) :=
  C9_default_key_id idGcm ⟨some (List.replicate 43 65 ++ [61]), none⟩
    (List.replicate 12 0) [104, 105] (List.replicate 43 65 ++ [61])
    rfl (by decide) (by decide) rfl (by decide)

/-- C5 counterexample: with a valid key set but the key identifier unset,
encryptToB64 succeeds instead of failing with a configuration error, so the
claim that an unset key identifier makes the cipher fail is false. -/
theorem C5_counterexample :
    (⟨some (List.replicate 43 65 ++ [61]), none⟩ :
        CryptoEnv).tokenEncryptionKeyId = none ∧
    encryptToB64 idGcm ⟨some (List.replicate 43 65 ++ [61]), none⟩
        (List.replicate 12 0) [104, 105] =
      .ok (encodeB64 (stringifyPayload ⟨ascii "default",
        encodeB64 (List.replicate 12 0), encodeB64 [104, 105], encodeB64 []⟩)) :=
  ⟨rfl, rfl⟩

/-- C5 amended: encryptToB64 and decryptFromB64 fail with a key
configuration error, producing no output, whenever the encryption key is
unset, empty, or does not base64-decode to exactly 32 bytes; an unset key
identifier instead falls back to the literal default. -/
theorem C5_key_config_errors (gcm : Gcm)
    (jsonParse : Bytes → Option EncryptedPayload) (env : CryptoEnv)
    (iv pt b64 : Bytes)
    (h : env.tokenEncryptionKey = none ∨
      ∃ ks, env.tokenEncryptionKey = some ks ∧ (decodeB64 ks).length ≠ 32) :
    ∃ e, (e = CryptoError.keyNotSet ∨ e = CryptoError.keyNot32Bytes) ∧
      encryptToB64 gcm env iv pt = .error e ∧
      decryptFromB64 gcm jsonParse env b64 = .error e := by
  have hg : ∃ e, (e = CryptoError.keyNotSet ∨ e = CryptoError.keyNot32Bytes) ∧
      getKey env = .error e := by
    rcases h with h | ⟨ks, hks, hlen⟩
    · exact ⟨.keyNotSet, Or.inl rfl, by simp [getKey, h]⟩
    · by_cases hne : ks = []
      · exact ⟨.keyNotSet, Or.inl rfl, by simp [getKey, hks, hne]⟩
      · exact ⟨.keyNot32Bytes, Or.inr rfl, by simp [getKey, hks, hne, hlen]⟩
  obtain ⟨e, he, hg⟩ := hg
  exact ⟨e, he, by simp [encryptToB64, hg], by simp [decryptFromB64, hg]⟩

theorem C5_key_config_errors_witness :
    ∃ e, (e = CryptoError.keyNotSet ∨ e = CryptoError.keyNot32Bytes) ∧
      encryptToB64 idGcm ⟨none, none⟩ [] [] = .error e ∧
      decryptFromB64 idGcm (parseFor ⟨[], [], [], []⟩) ⟨none, none⟩ [] = .error e :=
  C5_key_config_errors idGcm (parseFor ⟨[], [], [], []⟩) ⟨none, none⟩ [] [] []
    (Or.inl rfl)

/-- C8: decryptFromB64 derives key material solely from configuration and
never reads the envelope's keyId: two parsed envelopes agreeing on iv,
ciphertext and tag decrypt to the same result whatever their keyId. -/
theorem C8_key_id_not_used (gcm : Gcm)
    (jsonParse : Bytes → Option EncryptedPayload) (env : CryptoEnv)
    (s1 s2 : Bytes) (p1 p2 : EncryptedPayload)
    (h1 : jsonParse (decodeB64 s1) = some p1)
    (h2 : jsonParse (decodeB64 s2) = some p2)
    (hiv : p1.iv = p2.iv) (hct : p1.ciphertext = p2.ciphertext)
    (htag : p1.tag = p2.tag) :
    decryptFromB64 gcm jsonParse env s1 = decryptFromB64 gcm jsonParse env s2 := by
  unfold decryptFromB64
  cases getKey env with
  | error e => rfl
  | ok kk => simp [h1, h2, hiv, hct, htag]

theorem C8_key_id_not_used_witness :
    decryptFromB64 idGcm
        (fun b => if b = [0] then some ⟨ascii "k1", [], [65], []⟩
          else if b = [1] then some ⟨ascii "k2", [], [65], []⟩ else none)
        ⟨some (List.replicate 43 65 ++ [61]), some (ascii "k1")⟩ [65, 65, 61, 61] =
      decryptFromB64 idGcm
        (fun b => if b = [0] then some ⟨ascii "k1", [], [65], []⟩
          else if b = [1] then some ⟨ascii "k2", [], [65], []⟩ else none)
        ⟨some (List.replicate 43 65 ++ [61]), some (ascii "k1")⟩ [65, 81, 61, 61] :=
  C8_key_id_not_used idGcm _ _ _ _ ⟨ascii "k1", [], [65], []⟩
    ⟨ascii "k2", [], [65], []⟩ (by decide) (by decide) rfl rfl rfl

/-- C3 counterexample: a 9600-byte plaintext passes the size guard (its JSON
envelope is 12862 bytes), yet the base64 string encryptToB64 returns is
17152 bytes, exceeding the claimed 16384-byte bound on the returned value. -/
theorem C3_counterexample :
    encryptToB64 idGcm ⟨some (List.replicate 43 65 ++ [61]), some (ascii "k")⟩
        (List.replicate 12 0) (List.replicate 9600 65) =
      .ok (encodeB64 (stringifyPayload ⟨ascii "k", encodeB64 (List.replicate 12 0),
        encodeB64 (List.replicate 9600 65), encodeB64 []⟩)) ∧
    16384 < (encodeB64 (stringifyPayload ⟨ascii "k",
      encodeB64 (List.replicate 12 0),
      encodeB64 (List.replicate 9600 65), encodeB64 []⟩)).length := by
  have h1 : (encodeB64 (List.replicate 9600 65)).length = 12800 := by
    rw [encodeB64_length, List.length_replicate]
  have e1 : (escapeJson (ascii "k")).length = 1 := by decide
  have e2 : (encodeB64 (List.replicate 12 0)).length = 16 := by
    rw [encodeB64_length, List.length_replicate]
  have e3 : (encodeB64 ([] : Bytes)).length = 0 := rfl
  have h2 : (stringifyPayload ⟨ascii "k", encodeB64 (List.replicate 12 0),
      encodeB64 (List.replicate 9600 65), encodeB64 []⟩).length = 12862 := by
    rw [stringifyPayload_length]
    dsimp only
    rw [e1, e2, e3, h1]
  constructor
  · rw [encryptToB64_eq_ok]
    refine ⟨List.replicate 43 65 ++ [61], rfl, by decide, by decide, ?_, rfl⟩
    show (stringifyPayload ⟨ascii "k", encodeB64 (List.replicate 12 0),
      encodeB64 (List.replicate 9600 65), encodeB64 []⟩).length ≤ 16 * 1024
    rw [h2]
    norm_num
  · rw [encodeB64_length, h2]
    norm_num

/-- C3 amended: the 16 KiB cap is enforced on the serialized JSON envelope
before base64 encoding: a successful encryptToB64 returns the base64 of a
JSON envelope of at most 16384 bytes, so the returned string is at most
21848 bytes but may exceed 16384; an envelope over the cap makes
encryptToB64 fail with a size error rather than truncate. -/
theorem C3_size_cap (gcm : Gcm) (env : CryptoEnv) (iv pt : Bytes) :
    (∀ out, encryptToB64 gcm env iv pt = .ok out →
      ∃ p, out = encodeB64 (stringifyPayload p) ∧
        (stringifyPayload p).length ≤ 16 * 1024 ∧ out.length ≤ 21848) ∧
    (∀ ks, env.tokenEncryptionKey = some ks → ks ≠ [] →
      (decodeB64 ks).length = 32 →
      (stringifyPayload ⟨keyIdOf env, encodeB64 iv,
        encodeB64 (gcm.enc (decodeB64 ks) iv pt).1,
        encodeB64 (gcm.enc (decodeB64 ks) iv pt).2⟩).length > 16 * 1024 →
      encryptToB64 gcm env iv pt = .error CryptoError.payloadTooLarge) := by
  constructor
  · intro out hout
    rw [encryptToB64_eq_ok] at hout
    obtain ⟨ks, hk, hne, hlen, hsize, rfl⟩ := hout
    refine ⟨_, rfl, hsize, ?_⟩
    rw [encodeB64_length]
    omega
  · intro ks hk hne hlen hbig
    simp only [encryptToB64, getKey_ok env ks hk hne hlen]
    rw [if_pos hbig]

theorem C3_size_cap_witness :
    ∃ p, encodeB64 (stringifyPayload ⟨ascii "default",
        encodeB64 (List.replicate 12 0), encodeB64 [104, 105], encodeB64 []⟩) =
      encodeB64 (stringifyPayload p) ∧
      (stringifyPayload p).length ≤ 16 * 1024 ∧
      (encodeB64 (stringifyPayload ⟨ascii "default",
        encodeB64 (List.replicate 12 0), encodeB64 [104, 105],
        encodeB64 []⟩)).length ≤ 21848 :=
  (C3_size_cap idGcm ⟨some (List.replicate 43 65 ++ [61]), none⟩
    (List.replicate 12 0) [104, 105]).1
    (encodeB64 (stringifyPayload ⟨ascii "default",
      encodeB64 (List.replicate 12 0), encodeB64 [104, 105], encodeB64 []⟩))
    ((encryptToB64_eq_ok idGcm ⟨some (List.replicate 43 65 ++ [61]), none⟩
        (List.replicate 12 0) [104, 105] _).mpr
      ⟨List.replicate 43 65 ++ [61], rfl, by decide, by decide, by decide, rfl⟩)

/-- C4 counterexample: an environment violating both the classifier rule
(classifier on, no API key) and the SMS credentials rule (SMS on, no account
sid) fails with only the classifier message, a single-element list, instead
of reporting every violation at once. -/
theorem C4_counterexample :
    parseConfig NodeEnv.production
        ⟨some "postgres://db", some "AAAAAAAAAAAAAAAAAAAAAAAAAAAAAAAAAAAAAAAAAAA=",
          some "k1", none, none, none, none, none, none, none, none,
          some "true", none, none, some "true"⟩ = .error [msgClassifier] ∧
    (features NodeEnv.production
        ⟨some "postgres://db", some "AAAAAAAAAAAAAAAAAAAAAAAAAAAAAAAAAAAAAAAAAAA=",
          some "k1", none, none, none, none, none, none, none, none,
          some "true", none, none, some "true"⟩).sms = true ∧
    (⟨some "postgres://db", some "AAAAAAAAAAAAAAAAAAAAAAAAAAAAAAAAAAAAAAAAAAA=",
        some "k1", none, none, none, none, none, none, none, none,
        some "true", none, none, some "true"⟩ : RawEnv).TWILIO_ACCOUNT_SID =
      none :=
  ⟨rfl, by decide, rfl⟩

/-- C4 amended: field-level violations are aggregated — each modelled field
check contributes its message exactly when it fails and safeParse reports
the whole list — but the cross-field rules run only after every field check
passes, and a violated rule aborts with that single rule's message. -/
theorem C4_error_reporting (ne : NodeEnv) (env : RawEnv) :
    ((msgDbUrl ∈ fieldIssues env ↔ minLen1 env.DATABASE_URL = false) ∧
     (msgTokenKey ∈ fieldIssues env ↔
       base64Key32Ok env.TOKEN_ENCRYPTION_KEY = false) ∧
     (msgTokenKeyId ∈ fieldIssues env ↔
       minLen1 env.TOKEN_ENCRYPTION_KEY_ID = false)) ∧
    (fieldIssues env ≠ [] → parseConfig ne env = .error (fieldIssues env)) ∧
    (∀ m, fieldIssues env = [] → crossFieldError ne env = some m →
      parseConfig ne env = .error [m]) := by
  refine ⟨⟨?_, ?_, ?_⟩, ?_, ?_⟩
  · cases h1 : minLen1 env.DATABASE_URL <;>
      cases h2 : base64Key32Ok env.TOKEN_ENCRYPTION_KEY <;>
      cases h3 : minLen1 env.TOKEN_ENCRYPTION_KEY_ID <;>
      simp [fieldIssues, h1, h2, h3, msgDbUrl, msgTokenKey, msgTokenKeyId]
  · cases h1 : minLen1 env.DATABASE_URL <;>
      cases h2 : base64Key32Ok env.TOKEN_ENCRYPTION_KEY <;>
      cases h3 : minLen1 env.TOKEN_ENCRYPTION_KEY_ID <;>
      simp [fieldIssues, h1, h2, h3, msgDbUrl, msgTokenKey, msgTokenKeyId]
  · cases h1 : minLen1 env.DATABASE_URL <;>
      cases h2 : base64Key32Ok env.TOKEN_ENCRYPTION_KEY <;>
      cases h3 : minLen1 env.TOKEN_ENCRYPTION_KEY_ID <;>
      simp [fieldIssues, h1, h2, h3, msgDbUrl, msgTokenKey, msgTokenKeyId]
  · intro h
    simp [parseConfig, h]
  · intro m h hm
    simp [parseConfig, h, hm]

theorem C4_error_reporting_witness :
    parseConfig NodeEnv.production
        ⟨none, none, none, none, none, none, none, none, none, none, none,
          none, none, none, none⟩ =
      .error [msgDbUrl, msgTokenKey, msgTokenKeyId] :=
  ((C4_error_reporting NodeEnv.production
      ⟨none, none, none, none, none, none, none, none, none, none, none,
        none, none, none, none⟩).2.1 (by decide)).trans rfl

/-- C6: when the SMS flag is on, the field checks pass, and the other
cross-field rules (classifier, default recipient, push credentials) are
satisfied, validation succeeds precisely when both Twilio credentials are
present and exactly one of the messaging-service id and sender number is
supplied, a supplied sender number being valid E.164. -/
theorem C6_sms_rules (ne : NodeEnv) (env : RawEnv)
    (hfields : fieldIssues env = [])
    (hsms : (features ne env).sms = true)
    (hclassifier : ((features ne env).classifier &&
      !truthy env.OPENAI_API_KEY) = false)
    (hnodefault : truthy env.TWILIO_DEFAULT_SMS_TO = false)
    (hpush : ((features ne env).push && ne.isDevelopment &&
      !truthy env.GOOGLE_APPLICATION_CREDENTIALS) = false) :
    (∃ c, parseConfig ne env = .ok c) ↔
      (truthy env.TWILIO_ACCOUNT_SID = true ∧
       truthy env.TWILIO_AUTH_TOKEN = true ∧
       ((truthy env.TWILIO_MESSAGING_SERVICE_SID = true ∧
           truthy env.TWILIO_FROM_NUMBER = false) ∨
        (truthy env.TWILIO_MESSAGING_SERVICE_SID = false ∧
           truthy env.TWILIO_FROM_NUMBER = true)) ∧
       (truthy env.TWILIO_FROM_NUMBER = true →
         isE164 (env.TWILIO_FROM_NUMBER.getD "") = true)) := by
  have hok : (∃ c, parseConfig ne env = .ok c) ↔ crossFieldError ne env = none := by
    simp only [parseConfig, hfields, if_pos]
    cases crossFieldError ne env <;> simp
  rw [hok]
  unfold crossFieldError
  rw [hclassifier, hpush]
  cases hS : truthy env.TWILIO_ACCOUNT_SID <;>
    cases hT : truthy env.TWILIO_AUTH_TOKEN <;>
    cases hM : truthy env.TWILIO_MESSAGING_SERVICE_SID <;>
    cases hF : truthy env.TWILIO_FROM_NUMBER <;>
    cases hE : isE164 (env.TWILIO_FROM_NUMBER.getD "") <;>
    simp_all

theorem C6_sms_rules_witness :
    ∃ c, parseConfig NodeEnv.production
        ⟨some "postgres://db", some "AAAAAAAAAAAAAAAAAAAAAAAAAAAAAAAAAAAAAAAAAAA=",
          some "k1", none, some "AC1", some "tok", some "MG1", none, none, none,
          none, some "true", none, none, none⟩ = .ok c :=
  (C6_sms_rules NodeEnv.production
      ⟨some "postgres://db", some "AAAAAAAAAAAAAAAAAAAAAAAAAAAAAAAAAAAAAAAAAAA=",
        some "k1", none, some "AC1", some "tok", some "MG1", none, none, none,
        none, some "true", none, none, none⟩
      (by decide) (by decide) (by decide) rfl (by decide)).mpr
    ⟨rfl, rfl, Or.inl ⟨rfl, rfl⟩, fun h => absurd h (by decide)⟩
